import Mathlib

/-!
Verification development for the `redistest` Go module (redistest.go).

The module manages the lifecycle of a disposable Redis server process:
`Start` provisions a temporary workspace, writes a config file, locates the
`redis-server` binary, launches it with piped output streams, and polls a
liveness `PING` through `retry`; `Stop` interrupts the process, waits, closes
the streams and removes the workspace; `Freeze`/`Continue` send SIGSTOP and
SIGCONT; `abort` tears down a half-started process and aggregates
diagnostics; `findBinPath` resolves the binary directory.

Shallow embedding: the operating system, the filesystem and the Redis client
library are external collaborators, so their outcomes are supplied as an
environment record (one field per external call site, in program order).
Each embedded function returns its Go result together with a trace recording
which external effects the code performed, so that resource-handling claims
(directory removal, stream closing, signal delivery) are statable.
Errors are modelled by their message strings, `error == nil` by `none`.

Two behaviors of the `abort` failure path are modelled exactly as the Go
runtime and standard library fix them, rather than as free parameters:
when `cmd.Start` fails, `exec.Cmd.Start` assigns `cmd.Process` only on
success, so `abort`'s first statement `cmd.Process.Signal(os.Interrupt)`
dereferences a nil pointer and panics (modelled by the `panicked` outcome);
and at the reachable `abort` call site (readiness exhaustion) `cmd.Wait`
closes both parent pipe read ends before the two `ioutil.ReadAll` calls run,
so the drained captures are deterministically empty and the composite error
always embeds empty OUT/ERR content.
-/

/-- Model of Go `path.Join a b` for a clean `b`: Go joins the non-empty
elements with a slash (the inputs used by this module are already clean, so
the final `path.Clean` is the identity on them). -/
def pathJoin (a b : String) : String :=
  if a = "" then b else a ++ "/" ++ b

/-- Split a character list on `'/'` separators; auxiliary for `pathDir`.
Mirrors the element decomposition `path.Dir` performs. -/
def splitOnSlash : List Char → List (List Char)
  | [] => [[]]
  | c :: cs =>
    let r := splitOnSlash cs
    if c = '/' then [] :: r
    else
      match r with
      | [] => [[c]]
      | h :: t => (c :: h) :: t

/-- Model of Go `path.Dir` on clean paths: everything up to the last slash;
`"."` when there is no slash, `"/"` for a file directly under the root. -/
def pathDir (p : String) : String :=
  let parts := (splitOnSlash p.data).dropLast
  let d := List.intercalate ['/'] parts
  if d = [] then (if p.data.head? = some '/' then "/" else ".") else ⟨d⟩

/-- The fixed message `findBinPath` returns when `exec.LookPath` fails
(redistest.go line 187). -/
def notFoundMsg : String := "Did not find Redis executables installed"

/-- Embedding of `findBinPath` (redistest.go lines 180-188): the outcome of
`exec.LookPath("redis-server")` is supplied as the argument; on success the
containing directory of the resolved path is returned, otherwise the fixed
not-found error. -/
def findBinPath (lookPath : Except String String) : Except String String :=
  match lookPath with
  | .ok p => .ok (pathDir p)
  | .error _ => .error notFoundMsg

/-- The error string built by `abort` (redistest.go line 214):
`fmt.Errorf("%s: %s\nOUT: %s\nERR: %s", msg, err, sout, serr)`.  At the one
call site that reaches this statement (readiness exhaustion) both `sout` and
`serr` are empty, because the preceding `cmd.Wait` closed the pipe read ends
and the `ReadAll`s read from closed files. -/
def abortGo (msg errText soutContent serrContent : String) : String :=
  msg ++ ": " ++ errText ++ "\nOUT: " ++ soutContent ++ "\nERR: " ++ serrContent

/-- Loop body of `retry` (redistest.go lines 190-204), structured over the
number of remaining extra iterations the Go loop may still perform.  The Go
loop calls `fn`, returns `nil` on success, decrements `attempts`, returns the
error when `attempts <= 0`, otherwise sleeps `interval` and repeats; so after
`j` failed calls it keeps going iff `attempts0 - j - 1 > 0`, i.e. the loop
performs at most `1 + max(attempts0 - 1, 0)` calls.  `fuel` is that
remaining-iteration count `(attempts0 - 1).toNat - j`; `k` numbers the calls
so far and `s` accumulates nanoseconds slept, so the result carries the Go
return value, the exact number of `fn` invocations, and the total sleep time.
`fn k` is the error of the `k`-th probe invocation (`none` = success). -/
def retryAux (fn : Nat → Option String) (intervalNs : Nat) :
    Nat → Nat → Nat → Option String × Nat × Nat
  | fuel, k, s =>
    match fn k with
    | none => (none, k + 1, s)
    | some e =>
      match fuel with
      | 0 => (some e, k + 1, s)
      | fuel' + 1 => retryAux fn intervalNs fuel' (k + 1) (s + intervalNs)

/-- Embedding of `retry(fn, attempts, interval)` (redistest.go lines 190-204).
`attempts` is a Go `int` (may be non-positive); the interval is in
nanoseconds, the unit of Go `time.Duration`.  Returns the Go result together
with the number of invocations of `fn` and the total time slept. -/
def retry (fn : Nat → Option String) (attempts : Int) (intervalNs : Nat) :
    Option String × Nat × Nat :=
  retryAux fn intervalNs (attempts - 1).toNat 0 0

/-- The `Redis` handle (redistest.go lines 20-35).  `cmdPresent` models
`cmd != nil`; the stream fields record whether the pipe handles are non-nil
(`stderrOpen` models `stderr != nil`). -/
structure Redis where
  dir : String
  cmdPresent : Bool
  network : String
  address : String
  stderrOpen : Bool
  stdoutOpen : Bool
deriving DecidableEq

/-- Environment for one execution of `Start`: the outcome of every external
call, in program order.  `ping k` is the error of the `k`-th `PING` probe.
The content drained by `abort` is not a parameter: `cmd.Wait` runs before the
`ReadAll`s and closes the pipe read ends, so the drained captures are always
empty. -/
structure StartEnv where
  tempDir : Except String String
  mkdirErr : Option String
  writeFileErr : Option String
  lookPath : Except String String
  stderrPipeErr : Option String
  stdoutPipeErr : Option String
  startErr : Option String
  ping : Nat → Option String

/-- Outcome of one execution of `Start`: a Ready handle, an error return, or
a runtime panic — the latter happens on the `cmd.Start`-failure path, where
`abort` invokes `cmd.Process.Signal` on the nil `Process` left behind by the
failed `Start` and dereferences the nil pointer. -/
inductive StartResult where
  | ok (r : Redis)
  | fail (e : String)
  | panicked
deriving DecidableEq

/-- Trace of the external effects performed by one execution of `Start`.
`dirRemoved` records whether `os.RemoveAll` was invoked on the workspace
directory; `configWritten` holds the config-file content once written;
`stderrDrained`/`stdoutDrained` record that `ioutil.ReadAll` was invoked on
the captured stream (at the reachable call site it yields empty content: the
pipes were already closed by `cmd.Wait`); `pingCalls`/`sleepNs` come from
the `retry` loop. -/
structure StartTrace where
  tempDirCreated : Bool
  sockDirCreated : Bool
  configWritten : Option String
  stderrPipeOpened : Bool
  stdoutPipeOpened : Bool
  processStarted : Bool
  interruptSent : Bool
  waited : Bool
  stderrDrained : Bool
  stdoutDrained : Bool
  stderrClosed : Bool
  stdoutClosed : Bool
  dirRemoved : Bool
  pingCalls : Nat
  sleepNs : Nat

/-- The empty trace: no external effect performed yet. -/
def StartTrace.init : StartTrace :=
  ⟨false, false, none, false, false, false, false, false, false, false,
   false, false, false, 0, 0⟩

/-- Embedding of `Start` (redistest.go lines 44-131), following the source
line by line: temp dir, `sock` subdirectory, config file, `findBinPath`,
stderr pipe, stdout pipe (closing stderr if this fails), `cmd.Start`, then
the `PING` `retry` loop with 1000 attempts at 10ms = 10000000ns.

The two failure paths that invoke `abort` (lines 206-215) are modelled with
the semantics the Go runtime gives them.  When `cmd.Start` fails,
`exec.Cmd.Start` never assigned `cmd.Process`, so `abort`'s first statement
`cmd.Process.Signal(os.Interrupt)` dereferences a nil pointer and panics
before performing any effect: the outcome is `panicked` with no interrupt,
wait, drain or close recorded.  On readiness exhaustion the process is live:
`abort` signals the interrupt (error ignored), calls `cmd.Wait` — which
reaps the process and closes both parent pipe read ends — then runs
`ioutil.ReadAll` on each now-closed stream, obtaining empty content with a
discarded error, closes both streams and returns the composite error built
from empty captures.  Note the source contains no `os.RemoveAll` call. -/
def startGo (env : StartEnv) : StartResult × StartTrace :=
  match env.tempDir with
  | .error e => (.fail e, StartTrace.init)
  | .ok dir =>
    let t1 := { StartTrace.init with tempDirCreated := true }
    match env.mkdirErr with
    | some e => (.fail e, t1)
    | none =>
      let t2 := { t1 with sockDirCreated := true }
      let sockDir := pathJoin dir "sock"
      let network := "unix"
      let address := sockDir ++ "/redis.sock"
      let config := "\nport 0\nunixsocket " ++ address ++ "\nappendonly no\nsave \"\"\n"
      match env.writeFileErr with
      | some e => (.fail e, t2)
      | none =>
        let t3 := { t2 with configWritten := some config }
        match findBinPath env.lookPath with
        | .error e => (.fail e, t3)
        | .ok _binPath =>
          match env.stderrPipeErr with
          | some e => (.fail e, t3)
          | none =>
            let t4 := { t3 with stderrPipeOpened := true }
            match env.stdoutPipeErr with
            | some e => (.fail e, { t4 with stderrClosed := true })
            | none =>
              let t5 := { t4 with stdoutPipeOpened := true }
              match env.startErr with
              | some _ =>
                (.panicked, t5)
              | none =>
                let t6 := { t5 with processStarted := true }
                let r := retry env.ping 1000 10000000
                let t7 := { t6 with pingCalls := r.2.1, sleepNs := r.2.2 }
                match r.1 with
                | some e =>
                  (.fail (abortGo "Failed to connect to DB" e "" ""),
                   { t7 with interruptSent := true, waited := true,
                             stderrDrained := true, stdoutDrained := true,
                             stderrClosed := true, stdoutClosed := true })
                | none =>
                  (.ok { dir := dir, cmdPresent := true, network := network,
                         address := address, stderrOpen := true,
                         stdoutOpen := true }, t7)

/-- Environment for one execution of `Stop`: the outcomes of
`cmd.Process.Signal(os.Interrupt)` and `cmd.Wait()`. -/
structure StopEnv where
  signalErr : Option String
  waitErr : Option String
deriving DecidableEq

/-- Trace of the external effects performed by one execution of `Stop`.
`removeAllCalled` records whether the deferred `os.RemoveAll(s.dir)` ran. -/
structure StopTrace where
  removeAllCalled : Bool
  signalSent : Bool
  waitCalled : Bool
  stderrClosed : Bool
  stdoutClosed : Bool
deriving DecidableEq

/-- The empty stop trace: no external effect performed. -/
def StopTrace.init : StopTrace := ⟨false, false, false, false, false⟩

/-- Embedding of `Stop` (redistest.go lines 134-163).  A nil receiver
(`none`) returns nil immediately with no effect.  Otherwise the deferred
`os.RemoveAll(s.dir)` runs on every exit path, the interrupt is sent (an
error returns immediately), `Wait` runs (an error returns immediately), and
on full success each stream is closed when its handle is non-nil.  The model
covers handles as built by `Start`, whose `cmd` field is always set. -/
def stopGo (s : Option Redis) (env : StopEnv) : Option String × StopTrace :=
  match s with
  | none => (none, StopTrace.init)
  | some r =>
    match env.signalErr with
    | some e =>
      (some e, { StopTrace.init with removeAllCalled := true, signalSent := true })
    | none =>
      match env.waitErr with
      | some e =>
        (some e, { removeAllCalled := true, signalSent := true,
                   waitCalled := true, stderrClosed := false, stdoutClosed := false })
      | none =>
        (none, { removeAllCalled := true, signalSent := true,
                 waitCalled := true, stderrClosed := r.stderrOpen,
                 stdoutClosed := r.stdoutOpen })

/-- Outcome of a `Freeze`/`Continue` call: in Go, reading the field `s.cmd`
of a nil `*Redis` receiver dereferences a nil pointer and panics; otherwise
the method either sends its signal (when `s.cmd != nil`) or does nothing. -/
inductive SigOutcome where
  | panicked
  | signaled (sig : String)
  | noSignal
deriving DecidableEq

/-- Embedding of `Freeze` (redistest.go lines 166-170): on a nil receiver the
field access `s.cmd` panics; otherwise SIGSTOP is sent iff `cmd` is non-nil. -/
def freezeGo : Option Redis → SigOutcome
  | none => .panicked
  | some r => if r.cmdPresent then .signaled "SIGSTOP" else .noSignal

/-- Embedding of `Continue` (redistest.go lines 173-177): on a nil receiver
the field access `s.cmd` panics; otherwise SIGCONT is sent iff `cmd` is
non-nil. -/
def continueGo : Option Redis → SigOutcome
  | none => .panicked
  | some r => if r.cmdPresent then .signaled "SIGCONT" else .noSignal

/-- `needle` occurs contiguously inside `hay` (substring containment, stated
on the underlying character lists). -/
def containsSeg (needle hay : String) : Prop :=
  ∃ l r, hay.data = l ++ needle.data ++ r

/-- A concrete probe that fails on attempts 0 and 1 and succeeds from
attempt 2 on; used to instantiate the retry theorems. -/
def fnPing : Nat → Option String := fun k =>
  if k < 2 then some "connection refused" else none

/-- A concrete probe that fails on every attempt. -/
def fnFail : Nat → Option String := fun _ => some "connection refused"

/-- A concrete `Start` environment in which every external call succeeds
except `exec.LookPath`, which cannot find `redis-server`. -/
def envNoBinary : StartEnv :=
  { tempDir := .ok "/tmp/redistest123"
    mkdirErr := none
    writeFileErr := none
    lookPath := .error "exec: redis-server: executable file not found in $PATH"
    stderrPipeErr := none
    stdoutPipeErr := none
    startErr := none
    ping := fun _ => none }

/-- A concrete `Start` environment in which provisioning and the pipes
succeed but `cmd.Start` fails, leaving `cmd.Process` nil. -/
def envLaunchFail : StartEnv :=
  { tempDir := .ok "/tmp/redistest123"
    mkdirErr := none
    writeFileErr := none
    lookPath := .ok "/usr/bin/redis-server"
    stderrPipeErr := none
    stdoutPipeErr := none
    startErr := some "fork/exec /usr/bin/redis-server: permission denied"
    ping := fun _ => none }

/-- A concrete `Start` environment in which everything up to the launch
succeeds and every `PING` probe fails. -/
def envPingFail : StartEnv :=
  { tempDir := .ok "/tmp/redistest123"
    mkdirErr := none
    writeFileErr := none
    lookPath := .ok "/usr/bin/redis-server"
    stderrPipeErr := none
    stdoutPipeErr := none
    startErr := none
    ping := fnFail }

/-- A concrete live handle as built by a successful `Start`. -/
def redisLive : Redis :=
  { dir := "/tmp/redistest123", cmdPresent := true, network := "unix",
    address := "/tmp/redistest123/sock/redis.sock",
    stderrOpen := true, stdoutOpen := true }

theorem retryAux_all_fail (fn : Nat → Option String) (iv : Nat) :
    ∀ (fuel k s : Nat), (∀ i, i ≤ fuel → fn (k + i) ≠ none) →
      retryAux fn iv fuel k s = (fn (k + fuel), k + fuel + 1, s + fuel * iv) := by
  intro fuel
  induction fuel with
  | zero =>
    intro k s h
    obtain ⟨e, heq⟩ : ∃ e, fn k = some e := by
      cases hfk : fn k with
      | none => exact absurd hfk (by simpa using h 0 (le_refl 0))
      | some e => exact ⟨e, rfl⟩
    simp [retryAux, heq]
  | succ fuel ih =>
    intro k s h
    obtain ⟨e, heq⟩ : ∃ e, fn k = some e := by
      cases hfk : fn k with
      | none => exact absurd hfk (by simpa using h 0 (by omega))
      | some e => exact ⟨e, rfl⟩
    rw [retryAux]
    simp only [heq]
    rw [ih (k + 1) (s + iv) (fun i hi => by
      have := h (i + 1) (by omega)
      simpa [Nat.add_assoc, Nat.add_comm 1 i] using this)]
    have h1 : k + 1 + fuel = k + (fuel + 1) := by omega
    rw [h1]
    have h2 : s + iv + fuel * iv = s + (fuel + 1) * iv := by ring
    rw [h2]

theorem retryAux_first_success (fn : Nat → Option String) (iv : Nat) :
    ∀ (j fuel k s : Nat), j ≤ fuel → (∀ i, i < j → fn (k + i) ≠ none) →
      fn (k + j) = none →
      retryAux fn iv fuel k s = (none, k + j + 1, s + j * iv) := by
  intro j
  induction j with
  | zero =>
    intro fuel k s _ _ hsucc
    rw [retryAux]
    simp only [Nat.add_zero] at hsucc
    simp [hsucc]
  | succ j ih =>
    intro fuel k s hle hfail hsucc
    obtain ⟨fuel', rfl⟩ : ∃ f, fuel = f + 1 := ⟨fuel - 1, by omega⟩
    obtain ⟨e, heq⟩ : ∃ e, fn k = some e := by
      cases hfk : fn k with
      | none => exact absurd hfk (by simpa using hfail 0 (by omega))
      | some e => exact ⟨e, rfl⟩
    rw [retryAux]
    simp only [heq]
    rw [ih fuel' (k + 1) (s + iv) (by omega)
      (fun i hi => by
        have := hfail (i + 1) (by omega)
        simpa [Nat.add_assoc, Nat.add_comm 1 i] using this)
      (by
        have h0 : k + 1 + j = k + (j + 1) := by omega
        rw [h0]; exact hsucc)]
    have h1 : k + 1 + j = k + (j + 1) := by omega
    rw [h1]
    have h2 : s + iv + j * iv = s + (j + 1) * iv := by ring
    rw [h2]

theorem retry_first_success (fn : Nat → Option String) (iv n j : Nat)
    (hj : j < n) (hfail : ∀ i, i < j → fn i ≠ none) (hsucc : fn j = none) :
    retry fn (n : Int) iv = (none, j + 1, j * iv) := by
  have ht : (((n : Nat) : Int) - 1).toNat = n - 1 := by omega
  rw [retry, ht]
  have := retryAux_first_success fn iv j (n - 1) 0 0 (by omega)
    (fun i hi => by simpa using hfail i hi) (by simpa using hsucc)
  simpa using this

theorem retry_all_fail (fn : Nat → Option String) (iv n : Nat) (hn : 0 < n)
    (hfail : ∀ i, i < n → fn i ≠ none) :
    retry fn (n : Int) iv = (fn (n - 1), n, (n - 1) * iv) := by
  have ht : (((n : Nat) : Int) - 1).toNat = n - 1 := by omega
  rw [retry, ht]
  have := retryAux_all_fail fn iv (n - 1) 0 0
    (fun i hi => by simpa using hfail i (by omega))
  simpa [Nat.sub_add_cancel hn] using this

/-- Claim C2: for every probe `fn`, positive budget `n` and interval, `retry`
returns nil at the first successful invocation of `fn`, making no further
invocations; when all `n` invocations fail it invokes `fn` exactly `n` times
and returns the last observed error; and `Start` invokes `retry` with a
budget of 1000 attempts at a 10ms (10000000ns) interval, so that when every
probe fails it performs exactly 1000 probe invocations with 999 sleeps of
10ms between them. -/
theorem retry_and_budget_spec (fn : Nat → Option String) (iv n : Nat)
    (hn : 0 < n) :
    (∀ j, j < n → (∀ i, i < j → fn i ≠ none) → fn j = none →
        retry fn (n : Int) iv = (none, j + 1, j * iv))
  ∧ ((∀ i, i < n → fn i ≠ none) →
        retry fn (n : Int) iv = (fn (n - 1), n, (n - 1) * iv))
  ∧ (∀ env : StartEnv, ∀ dir, env.tempDir = .ok dir → env.mkdirErr = none →
        env.writeFileErr = none → (∃ p, env.lookPath = .ok p) →
        env.stderrPipeErr = none → env.stdoutPipeErr = none →
        env.startErr = none →
          (startGo env).2.pingCalls = (retry env.ping 1000 10000000).2.1
        ∧ (startGo env).2.sleepNs = (retry env.ping 1000 10000000).2.2
        ∧ ((∀ i, i < 1000 → env.ping i ≠ none) →
             (startGo env).2.pingCalls = 1000
           ∧ (startGo env).2.sleepNs = 999 * 10000000)) := by
  refine ⟨?_, ?_, ?_⟩
  · intro j hj hfail hsucc
    exact retry_first_success fn iv n j hj hfail hsucc
  · intro hfail
    exact retry_all_fail fn iv n hn hfail
  · intro env dir h1 h2 h3 h4 h5 h6 h7
    obtain ⟨p, hp⟩ := h4
    obtain ⟨td, mk, wr, lp, sep, sop, st, pg⟩ := env
    simp only at h1 h2 h3 h5 h6 h7 hp
    subst h1 h2 h3 h5 h6 h7 hp
    have key :
        ((startGo ⟨.ok dir, none, none, .ok p, none, none, none, pg⟩).2.pingCalls
          = (retry pg 1000 10000000).2.1)
      ∧ ((startGo ⟨.ok dir, none, none, .ok p, none, none, none, pg⟩).2.sleepNs
          = (retry pg 1000 10000000).2.2) := by
      simp only [startGo, findBinPath]
      split <;> exact ⟨rfl, rfl⟩
    refine ⟨key.1, key.2, fun hfail => ?_⟩
    have h := retry_all_fail pg 10000000 1000 (by norm_num)
      (fun i hi => hfail i hi)
    have hcast : (((1000 : Nat) : Int)) = (1000 : Int) := by norm_cast
    rw [hcast] at h
    rw [key.1, key.2, h]
    norm_num

/-- Claim C10: for every probe `fn` and every non-positive attempt budget,
`retry` still invokes `fn` exactly once and returns that invocation's
result, with no sleeping. -/
theorem retry_nonpositive_budget (fn : Nat → Option String) (iv : Nat)
    (a : Int) (ha : a ≤ 0) :
    retry fn a iv = (fn 0, 1, 0) := by
  have ht : (a - 1).toNat = 0 := by omega
  rw [retry, ht, retryAux]
  cases hf : fn 0 <;> simp [hf]

/-- Witness for claim C10: with a budget of -3, the always-failing probe is
invoked once and its error is returned. -/
theorem retry_nonpositive_budget_witness :
    retry fnFail (-3) 5 = (some "connection refused", 1, 0) := by
  have h := retry_nonpositive_budget fnFail 5 (-3) (by decide)
  simpa [fnFail] using h

/-- Witness for claim C2: with probe `fnPing` (fails twice, then succeeds)
and budget 5, `retry` succeeds after 3 invocations with 2 sleeps; with the
always-failing probe and budget 4 it fails after exactly 4 invocations; and
`Start` against the always-failing probe performs exactly 1000 probe calls. -/
theorem retry_and_budget_spec_witness :
    retry fnPing 5 7 = (none, 3, 14)
  ∧ retry fnFail 4 7 = (some "connection refused", 4, 21)
  ∧ (startGo envPingFail).2.pingCalls = 1000 := by
  refine ⟨?_, ?_, ?_⟩
  · have h := (retry_and_budget_spec fnPing 7 5 (by decide)).1 2 (by decide)
      (fun i hi => by interval_cases i <;> simp [fnPing]) (by simp [fnPing])
    simpa using h
  · have h := (retry_and_budget_spec fnFail 7 4 (by decide)).2.1
      (fun i _ => by simp [fnFail])
    simpa [fnFail] using h
  · have h := ((retry_and_budget_spec fnFail 7 4 (by decide)).2.2 envPingFail
      "/tmp/redistest123" rfl rfl rfl ⟨"/usr/bin/redis-server", rfl⟩ rfl rfl rfl).2.2
      (fun i _ => by simp [envPingFail, fnFail])
    exact h.1

/-- Claim C3: on a live (non-nil, started) service, `Stop` sends the
interrupt, waits for exit once the interrupt succeeded, closes each captured
stream that is open when both interrupt and wait succeed, and returns the
first error encountered (interrupt failure, else wait failure), or nil when
both succeed. -/
theorem stop_live_service_spec (r : Redis) (env : StopEnv) :
    (stopGo (some r) env).1
      = (match env.signalErr with | some e => some e | none => env.waitErr)
  ∧ ((stopGo (some r) env).1 = none ↔ env.signalErr = none ∧ env.waitErr = none)
  ∧ (stopGo (some r) env).2.signalSent = true
  ∧ (env.signalErr = none → (stopGo (some r) env).2.waitCalled = true)
  ∧ ((stopGo (some r) env).1 = none →
       (stopGo (some r) env).2.stderrClosed = r.stderrOpen
     ∧ (stopGo (some r) env).2.stdoutClosed = r.stdoutOpen) := by
  obtain ⟨sg, wt⟩ := env
  cases sg <;> cases wt <;> simp [stopGo]

/-- Witness for claim C3: stopping a live handle whose interrupt and wait
both succeed returns nil and closes its open streams. -/
theorem stop_live_service_spec_witness :
    (stopGo (some redisLive) ⟨none, none⟩).1 = none
  ∧ (stopGo (some redisLive) ⟨none, none⟩).2.stderrClosed = true := by
  have h := stop_live_service_spec redisLive ⟨none, none⟩
  have h1 : (stopGo (some redisLive) ⟨none, none⟩).1 = none := by
    simpa using h.1
  exact ⟨h1, by simpa [redisLive] using (h.2.2.2.2 h1).1⟩

/-- Claim C4: on every non-nil service, the deferred removal of the workspace
directory tree runs on every exit path of `Stop`, including the paths where
the interrupt or the wait fails. -/
theorem stop_always_removes_workspace (r : Redis) (env : StopEnv) :
    (stopGo (some r) env).2.removeAllCalled = true := by
  obtain ⟨sg, wt⟩ := env
  cases sg <;> cases wt <;> simp [stopGo]

/-- Claim C5: `Stop` on a nil service handle returns nil and performs no
action: no removal, no signal, no wait, no stream close. -/
theorem stop_nil_noop (env : StopEnv) :
    stopGo none env = (none, ⟨false, false, false, false, false⟩) := rfl

/-- Claim C9: `Freeze` and `Continue` guard only on the process handle being
non-nil, sending SIGSTOP resp. SIGCONT exactly when `cmd` is present; on a
nil service handle the receiver field access dereferences the nil pointer
and panics, whereas `Stop` on a nil handle returns nil without panicking. -/
theorem freeze_continue_nil_unsafe :
    freezeGo none = .panicked
  ∧ continueGo none = .panicked
  ∧ (∀ r, freezeGo (some r)
        = if r.cmdPresent then .signaled "SIGSTOP" else .noSignal)
  ∧ (∀ r, continueGo (some r)
        = if r.cmdPresent then .signaled "SIGCONT" else .noSignal)
  ∧ (∀ env, stopGo none env = (none, StopTrace.init)) :=
  ⟨rfl, rfl, fun _ => rfl, fun _ => rfl, fun _ => rfl⟩

/-- Counterexample for claim C1: in an execution where temp-dir creation, the
socket subdirectory and the config write succeed but the server executable is
absent from the search path, `Start` returns the environment-class error, yet
the temporary workspace directory was created and never removed — the claim
that every failing `Start` releases the workspace is false on the code. -/
theorem start_missing_binary_leaves_workspace :
    (startGo envNoBinary).1 = .fail notFoundMsg
  ∧ (startGo envNoBinary).2.tempDirCreated = true
  ∧ (startGo envNoBinary).2.dirRemoved = false :=
  ⟨rfl, rfl, rfl⟩

/-- Claim C1 as amended: no execution of `Start` removes the temporary
workspace directory, so every failing execution after temp-dir creation
leaves it behind; every failing execution that returns does so with no
service and an error, with the stream handles opened so far closed (stderr
when only the stderr pipe was opened, both streams on the
readiness-exhaustion path), while the `cmd.Start`-failure execution never
returns at all: it panics inside `abort` on the nil process handle, before
any interrupt, drain or close.  In particular, when the server executable is
absent, `Start` returns the environment-class error while the workspace
directory it created remains behind. -/
theorem start_failure_keeps_workspace (env : StartEnv) :
    ((startGo env).2.dirRemoved = false)
  ∧ (∀ e tr, startGo env = (.fail e, tr) →
        (tr.stderrPipeOpened = true → tr.stdoutPipeOpened = false →
           tr.stderrClosed = true)
      ∧ (tr.stdoutPipeOpened = true →
           tr.stderrClosed = true ∧ tr.stdoutClosed = true))
  ∧ (∀ tr, startGo env = (.panicked, tr) →
        tr.stdoutPipeOpened = true ∧ tr.interruptSent = false
      ∧ tr.stderrClosed = false ∧ tr.stdoutClosed = false
      ∧ tr.dirRemoved = false)
  ∧ (∀ dir le, env.tempDir = .ok dir → env.mkdirErr = none →
        env.writeFileErr = none → env.lookPath = .error le →
          (startGo env).1 = .fail notFoundMsg
        ∧ (startGo env).2.tempDirCreated = true
        ∧ (startGo env).2.dirRemoved = false) := by
  obtain ⟨td, mk, wr, lp, sep, sop, st, pg⟩ := env
  refine ⟨?_, ?_, ?_, ?_⟩
  · cases td <;> cases mk <;> cases wr <;> cases lp <;> cases sep <;>
      cases sop <;> cases st <;>
      simp only [startGo, findBinPath] <;>
      (first | rfl | (split <;> rfl))
  · intro e tr heq
    cases td <;> cases mk <;> cases wr <;> cases lp <;> cases sep <;>
      cases sop <;> cases st <;>
      simp only [startGo, findBinPath] at heq <;>
      (try split at heq) <;>
      injection heq with hval htr <;>
      (first
        | exact StartResult.noConfusion hval
        | (subst htr; simp [StartTrace.init]))
  · intro tr heq
    cases td <;> cases mk <;> cases wr <;> cases lp <;> cases sep <;>
      cases sop <;> cases st <;>
      simp only [startGo, findBinPath] at heq <;>
      (try split at heq) <;>
      injection heq with hval htr <;>
      (first
        | exact StartResult.noConfusion hval
        | (subst htr; simp [StartTrace.init]))
  · intro dir le h1 h2 h3 h4
    simp only at h1 h2 h3 h4
    subst h1 h2 h3 h4
    exact ⟨rfl, rfl, rfl⟩

/-- Witness for the amended claim C1: the missing-binary environment
satisfies the hypotheses of the amended theorem, which then yields the
not-found error with the workspace created and not removed. -/
theorem start_failure_keeps_workspace_witness :
    (startGo envNoBinary).1 = .fail notFoundMsg
  ∧ (startGo envNoBinary).2.tempDirCreated = true
  ∧ (startGo envNoBinary).2.dirRemoved = false :=
  (start_failure_keeps_workspace envNoBinary).2.2.2 "/tmp/redistest123"
    "exec: redis-server: executable file not found in $PATH" rfl rfl rfl rfl

set_option maxRecDepth 8000 in
/-- Claim C6 (code bug): the failure aggregator does not do what the claim
says on either post-spawn failure path.  On a launch error, `cmd.Start`
leaves `cmd.Process` nil and `abort` panics at `cmd.Process.Signal` instead
of interrupting, draining and returning a composite error — no effect of
`abort` is performed.  On readiness-budget exhaustion, `abort` does send the
interrupt, wait, run both `ReadAll`s and close both streams, but `cmd.Wait`
has already closed the pipe read ends, so the drained captures are empty and
the composite error embeds empty OUT/ERR sections rather than the full
captured process output. -/
theorem abort_divergence_on_failure :
    (startGo envLaunchFail).1 = .panicked
  ∧ (startGo envLaunchFail).2.interruptSent = false
  ∧ (startGo envLaunchFail).2.waited = false
  ∧ (startGo envLaunchFail).2.stderrDrained = false
  ∧ (startGo envLaunchFail).2.stderrClosed = false
  ∧ (startGo envPingFail).1
      = .fail ("Failed to connect to DB" ++ ": " ++ "connection refused"
          ++ "\nOUT: " ++ "" ++ "\nERR: " ++ "")
  ∧ (startGo envPingFail).2.interruptSent = true
  ∧ (startGo envPingFail).2.waited = true
  ∧ (startGo envPingFail).2.stderrDrained = true
  ∧ (startGo envPingFail).2.stdoutDrained = true
  ∧ (startGo envPingFail).2.stderrClosed = true
  ∧ (startGo envPingFail).2.stdoutClosed = true := by
  refine ⟨rfl, rfl, rfl, rfl, rfl, ?_, rfl, rfl, rfl, rfl, rfl, rfl⟩
  rfl

theorem config_has_port (address : String) :
    containsSeg "\nport 0\n"
      ("\nport 0\nunixsocket " ++ address ++ "\nappendonly no\nsave \"\"\n") := by
  unfold containsSeg
  refine ⟨[], ("unixsocket ").data ++ address.data
      ++ ("\nappendonly no\nsave \"\"\n").data, ?_⟩
  simp [String.data_append, List.append_assoc]

theorem config_has_appendonly (address : String) :
    containsSeg "\nappendonly no\n"
      ("\nport 0\nunixsocket " ++ address ++ "\nappendonly no\nsave \"\"\n") := by
  unfold containsSeg
  refine ⟨("\nport 0\nunixsocket ").data ++ address.data, ("save \"\"\n").data, ?_⟩
  simp [String.data_append, List.append_assoc]

theorem config_has_unixsocket (address : String) :
    containsSeg ("\nunixsocket " ++ address ++ "\n")
      ("\nport 0\nunixsocket " ++ address ++ "\nappendonly no\nsave \"\"\n") := by
  unfold containsSeg
  refine ⟨("\nport 0").data, ("appendonly no\nsave \"\"\n").data, ?_⟩
  simp [String.data_append, List.append_assoc]

/-- Claim C7: once provisioning succeeds, the generated configuration file
contains the three semantic settings: the line disabling the default network
port (`port 0`), the `unixsocket` line binding the server only to the
private socket path located inside the fresh workspace directory, and the
line disabling append-only durability logging (`appendonly no`). -/
theorem start_config_semantics (env : StartEnv) (dir : String)
    (h1 : env.tempDir = .ok dir) (h2 : env.mkdirErr = none)
    (h3 : env.writeFileErr = none) (hdir : dir ≠ "") :
    ∃ cfg, (startGo env).2.configWritten = some cfg
      ∧ containsSeg "\nport 0\n" cfg
      ∧ containsSeg "\nappendonly no\n" cfg
      ∧ ∃ addr, addr = pathJoin dir "sock" ++ "/redis.sock"
          ∧ containsSeg ("\nunixsocket " ++ addr ++ "\n") cfg
          ∧ ∃ rest, addr.data = (dir ++ "/").data ++ rest := by
  obtain ⟨td, mk, wr, lp, sep, sop, st, pg⟩ := env
  simp only at h1 h2 h3
  subst h1 h2 h3
  refine ⟨"\nport 0\nunixsocket " ++ (pathJoin dir "sock" ++ "/redis.sock")
      ++ "\nappendonly no\nsave \"\"\n",
    ?_, config_has_port _, config_has_appendonly _,
    pathJoin dir "sock" ++ "/redis.sock", rfl, config_has_unixsocket _, ?_⟩
  · cases lp <;> cases sep <;> cases sop <;> cases st <;>
      simp only [startGo, findBinPath] <;> (first | rfl | (split <;> rfl))
  · have hpj : pathJoin dir "sock" = dir ++ "/" ++ "sock" := by
      rw [pathJoin, if_neg hdir]
    rw [hpj]
    refine ⟨("sock/redis.sock").data, ?_⟩
    simp [String.data_append, List.append_assoc]

/-- Witness for claim C7: the concrete ping-failure environment provisions
successfully, so its config file carries the three semantic settings. -/
theorem start_config_semantics_witness :
    ∃ cfg, (startGo envPingFail).2.configWritten = some cfg
      ∧ containsSeg "\nport 0\n" cfg
      ∧ containsSeg "\nappendonly no\n" cfg
      ∧ ∃ addr, addr = pathJoin "/tmp/redistest123" "sock" ++ "/redis.sock"
          ∧ containsSeg ("\nunixsocket " ++ addr ++ "\n") cfg
          ∧ ∃ rest, addr.data = ("/tmp/redistest123" ++ "/").data ++ rest :=
  start_config_semantics envPingFail "/tmp/redistest123" rfl rfl rfl (by decide)

theorem take_len_append {α : Type} (l₁ l₂ : List α) :
    (l₁ ++ l₂).take l₁.length = l₁ := by
  induction l₁ with
  | nil => simp
  | cons a t ih => simp [ih]

/-- Claim C8: the Binary Locator returns the containing directory of the
resolved executable when the search-path lookup succeeds, and otherwise
fails with the fixed not-found message — an error value distinct from every
launch-failure error `Start` can produce through `abort` (provisioning
errors are opaque operating-system errors passed through unchanged on
entirely separate return paths). -/
theorem findBinPath_spec :
    (∀ p, findBinPath (.ok p) = .ok (pathDir p))
  ∧ (∀ e, findBinPath (.error e) = .error notFoundMsg)
  ∧ (∀ msg, (msg = "Failed to start Redis" ∨ msg = "Failed to connect to DB") →
      ∀ etext soutC serrC, abortGo msg etext soutC serrC ≠ notFoundMsg) := by
  refine ⟨fun p => rfl, fun e => rfl, ?_⟩
  rintro msg hmsg etext soutC serrC h
  have hd := congrArg String.data h
  simp only [abortGo, String.data_append, List.append_assoc, notFoundMsg] at hd
  rcases hmsg with rfl | rfl
  · have h21 := congrArg (List.take 21) hd
    rw [show (21 : Nat) = ("Failed to start Redis").data.length from by decide]
      at h21
    rw [take_len_append] at h21
    exact absurd h21 (by decide)
  · have h23 := congrArg (List.take 23) hd
    rw [show (23 : Nat) = ("Failed to connect to DB").data.length from by decide]
      at h23
    rw [take_len_append] at h23
    exact absurd h23 (by decide)

/-- Witness for claim C8: lookup success yields the containing directory
`/usr/bin`; lookup failure yields the fixed not-found error, which differs
from a concrete launch-failure diagnostic. -/
theorem findBinPath_spec_witness :
    findBinPath (.ok "/usr/bin/redis-server") = .ok "/usr/bin"
  ∧ findBinPath (.error "no such file") = .error notFoundMsg
  ∧ abortGo "Failed to start Redis" "boom" "o" "e" ≠ notFoundMsg := by
  refine ⟨?_, ?_, ?_⟩
  · have h := findBinPath_spec.1 "/usr/bin/redis-server"
    rw [h]
    exact congrArg Except.ok (by decide)
  · exact findBinPath_spec.2.1 "no such file"
  · exact findBinPath_spec.2.2 "Failed to start Redis" (Or.inl rfl) "boom" "o" "e"
